import Mathlib

/-!
# Verification of the wolfictl bundle engine

A shallow embedding of `pkg/internal/bundle/bundle.go`: the GCS-fuse mount
spec parser, the pod spec builder (`Podspec`), the image composer (`New`),
the bundle decoder (`Pull`), the tar/layer builder (`tarAddFS` / `layer` /
`renderEntrypoint`), and the `Task` JSON codec.

Machine floating point from the Go source (`strconv.ParseFloat`,
`fmt.Sprintf("%f", ...)`) is embedded over exact rationals: the CPU strings
at stake are finite decimals, parsed and formatted exactly at the six
fractional digits that `%f` prints.
-/

namespace WolfiBundle

/-- First-occurrence cut of a character list at a separator, embedding
Go-style single-separator `strings.Cut`: returns the part before the first
separator and the part after it, or `none` when the separator is absent. -/
def cutChars (sep : Char) : List Char → Option (List Char × List Char)
  | [] => none
  | c :: cs =>
    if c = sep then some ([], cs)
    else (cutChars sep cs).map (fun p => (c :: p.1, p.2))

/-- `strings.Cut s sep` for a one-character separator, on `String`. -/
def strCut (s : String) (sep : Char) : Option (String × String) :=
  (cutChars sep s.data).map (fun p => (String.mk p.1, String.mk p.2))

/-- `GCSFuseMount` from bundle.go: bucket, mount path, optional directory. -/
structure GCSFuseMount where
  bucket : String
  mount : String
  onlyDir : String
deriving DecidableEq, Repr

/-- `ParseGCSFuseMount` from bundle.go: split the input at the first `:`
into `before` and `mount` (error when no `:` occurs), then split `before`
at the first `/` into bucket and optional only-dir. -/
def ParseGCSFuseMount (s : String) : Except String GCSFuseMount :=
  match strCut s ':' with
  | none =>
    .error ("gcsfuse mount spec should be in the form \x27bucket[/onlydir]:/mount\x27, got: " ++ s)
  | some (before, mount) =>
    let bo : String × String :=
      match strCut before '/' with
      | some (b, o) => (b, o)
      | none => (before, "")
    .ok ⟨bo.1, mount, bo.2⟩

/-! ## Decimal parsing and formatting (strconv.ParseFloat / Sprintf "%f")

The CPU values the bundle code computes are finite decimals (a parsed
decimal string, optionally clamped to the integer 48, times 0.98), so the
Go `float64` pipeline is embedded exactly over a decimal fixed-point type:
an integer mantissa with a power-of-ten denominator. -/

/-- An exact decimal number: the value `num / 10 ^ exp`. -/
structure Dec where
  num : Int
  exp : Nat
deriving DecidableEq, Repr

/-- The rational value of a `Dec`. -/
def Dec.toRat (d : Dec) : ℚ :=
  (d.num : ℚ) / (10 : ℚ) ^ d.exp

/-- Value of a digit string, most significant first. -/
def digitsToNat (cs : List Char) : Nat :=
  cs.foldl (fun acc c => acc * 10 + (c.toNat - 48)) 0

/-- Parse an unsigned decimal number `digits[.digits]` exactly; `none` when
the shape is not a decimal number.  This embeds the decimal-form fragment
of Go `strconv.ParseFloat` that the bundle code relies on for CPU
quantities. -/
def parseUnsignedDecimal (cs : List Char) : Option Dec :=
  let ip := cs.takeWhile (·.isDigit)
  let rest := cs.dropWhile (·.isDigit)
  match rest with
  | [] => if ip.isEmpty then none else some ⟨digitsToNat ip, 0⟩
  | '.' :: fp =>
    if fp.all (·.isDigit) && (!ip.isEmpty || !fp.isEmpty) then
      some ⟨digitsToNat ip * 10 ^ fp.length + digitsToNat fp, fp.length⟩
    else none
  | _ => none

/-- Signed decimal parse: optional `-` or `+` sign then an unsigned decimal. -/
def parseDecimal (s : String) : Option Dec :=
  match s.data with
  | '-' :: cs => (parseUnsignedDecimal cs).map (fun d => ⟨-d.num, d.exp⟩)
  | '+' :: cs => parseUnsignedDecimal cs
  | cs => parseUnsignedDecimal cs

/-- Left-pad a string with `0` to the given length. -/
def padZeros (s : String) (n : Nat) : String :=
  if s.length ≥ n then s else String.mk (List.replicate (n - s.length) '0') ++ s

/-- Scale a nonnegative mantissa `n / 10 ^ e` to six fractional digits,
rounding to nearest. -/
def scaleTo6 (n : Nat) (e : Nat) : Nat :=
  if e ≤ 6 then n * 10 ^ (6 - e)
  else (2 * n + 10 ^ (e - 6)) / (2 * 10 ^ (e - 6))

/-- Format a nonnegative mantissa/exponent pair with exactly six fractional
digits, embedding `fmt.Sprintf("%f", x)` for the exact decimal values the
pod spec builder produces. -/
def formatFNonneg (n : Nat) (e : Nat) : String :=
  let scaled := scaleTo6 n e
  toString (scaled / 1000000) ++ "." ++ padZeros (toString (scaled % 1000000)) 6

/-- `fmt.Sprintf("%f", x)` with a leading minus sign for negatives. -/
def formatF (d : Dec) : String :=
  if d.num < 0 then "-" ++ formatFNonneg (-d.num).toNat d.exp
  else formatFNonneg d.num.toNat d.exp

/-! ## Task data model -/

/-- The CPU/Memory fields of melange `config.Resources` used by bundle.go
(JSON tags `cpu,omitempty` / `memory,omitempty`). -/
structure Resources where
  cpu : String
  memory : String
deriving DecidableEq, Repr

/-- `Task` from bundle.go.  The build timestamp is embedded as its Unix
whole-seconds value, which is what `Podspec` reads from it. -/
structure Task where
  package : String
  version : String
  epoch : Nat
  path : String
  sourceDir : String
  architectures : List String
  subpackages : List String
  resources : Option Resources
  buildDateEpoch : Int
deriving DecidableEq, Repr

/-- Modelled from the spec: the external architecture normalization
(`types.ParseArchitecture(arch).String()` from the apko dependency), which
maps apk-style names onto OCI names and leaves anything else unchanged.
The bundle code only branches on whether the result is `"arm64"`. -/
def parseArchitecture (s : String) : String :=
  match s with
  | "x86" => "386"
  | "x86_64" => "amd64"
  | "aarch64" => "arm64"
  | "armhf" => "arm/v6"
  | "armv7" => "arm/v7"
  | _ => s

/-- `MaxArmCore` from bundle.go. -/
def MaxArmCore : Nat := 48

/-- `escapeRFC1123` from bundle.go: replace `.` and `_` with `-` and
lower-case the result (the replaced characters are single characters, so
the `strings.ReplaceAll` pipeline acts character by character). -/
def escapeRFC1123 (s : String) : String :=
  String.mk (s.data.map (fun c => if c = '.' then '-' else if c = '_' then '-' else c.toLower))

/-! ## Pod model (the corev1 fields Podspec populates) -/

structure EnvVar where
  name : String
  value : String
deriving DecidableEq, Repr

structure Toleration where
  effect : String
  key : String
  operator : String
  value : String
deriving DecidableEq, Repr

structure NodeSelectorRequirement where
  key : String
  operator : String
  values : List String
deriving DecidableEq, Repr

structure NodeSelectorTerm where
  matchExpressions : List NodeSelectorRequirement
deriving DecidableEq, Repr

/-- Hard node affinity: the required-during-scheduling node selector terms. -/
structure NodeAffinity where
  requiredTerms : List NodeSelectorTerm
deriving DecidableEq, Repr

structure ResourceList where
  cpu : String
  memory : String
deriving DecidableEq, Repr

/-- Resource requirements: `Podspec` only ever sets `requests`. -/
structure ResourceRequirements where
  requests : Option ResourceList
  limits : Option ResourceList
deriving DecidableEq, Repr

structure VolumeMount where
  name : String
  mountPath : String
deriving DecidableEq, Repr

structure Container where
  name : String
  image : String
  env : List EnvVar
  args : List String
  resources : ResourceRequirements
  volumeMounts : List VolumeMount
  privileged : Bool
deriving DecidableEq, Repr

structure Pod where
  generateName : String
  namespaceName : String
  labels : List (String × String)
  terminationGracePeriodSeconds : Int
  containers : List Container
  restartPolicy : String
  automountServiceAccountToken : Bool
  nodeSelector : List (String × String)
  tolerations : List Toleration
  serviceAccountName : String
  seccompProfileType : String
  volumes : List String
  affinity : Option NodeAffinity
deriving DecidableEq, Repr

/-- Resource resolution from `Podspec`: start from the defaults
CPU `"2"` / Memory `"4Gi"`, then override each field independently when
the task carries a non-empty value for it. -/
def resolveResources (task : Task) : Resources :=
  match task.resources with
  | none => ⟨"2", "4Gi"⟩
  | some i =>
    ⟨if i.cpu = "" then "2" else i.cpu,
     if i.memory = "" then "4Gi" else i.memory⟩

/-- Whether the decimal value exceeds the natural number `k`. -/
def Dec.gtNat (d : Dec) (k : Nat) : Bool :=
  d.num > (k : Int) * 10 ^ d.exp

/-- The ARM clamp from `Podspec`: cap the CPU at `MaxArmCore` only when the
normalized architecture is `arm64` and the value exceeds the cap. -/
def clampArmCpu (goarch : String) (c : Dec) : Dec :=
  if goarch = "arm64" ∧ c.gtNat MaxArmCore then ⟨MaxArmCore, 0⟩ else c

/-- The CPU adjustment pipeline from `Podspec`: ARM clamp then the fixed
2% bin-packing reduction (`cpu *= 0.98`, exact on decimals). -/
def adjustedCpu (goarch : String) (c : Dec) : Dec :=
  ⟨(clampArmCpu goarch c).num * 98, (clampArmCpu goarch c).exp + 2⟩

/-- `Podspec` from bundle.go: build the complete pod description for one
task on one architecture.  The only error path is an unparsable CPU
value; the memory string is passed through unvalidated (the Go code hands
it to `resource.MustParse`, which is not an error return). -/
def Podspec (task : Task) (ref : String) (arch mFamily sa ns : String) :
    Except String Pod :=
  let goarch := parseArchitecture arch
  let res := resolveResources task
  match parseDecimal res.cpu with
  | none => .error ("parsing cpu \x22" ++ res.cpu ++ "\x22")
  | some cpu =>
    let cpuStr := formatF (adjustedCpu goarch cpu)
    let rr : ResourceRequirements := ⟨some ⟨cpuStr, res.memory⟩, none⟩
    let baseTols : List Toleration :=
      [⟨"NoSchedule", "chainguard.dev/runner", "Equal", "bundle-builder"⟩]
    let mf := if goarch = "arm64" then "t2a" else mFamily
    let tols :=
      if goarch = "arm64" then
        baseTols ++ [⟨"NoSchedule", "kubernetes.io/arch", "Equal", "arm64"⟩]
      else baseTols
    .ok
      { generateName := escapeRFC1123 task.package ++ "-" ++ goarch ++ "-"
        namespaceName := ns
        labels :=
          [("kubernetes.io/arch", goarch),
           ("app.kubernetes.io/component", task.package),
           ("melange.chainguard.dev/arch", goarch),
           ("melange.chainguard.dev/package", task.package)]
        terminationGracePeriodSeconds := 0
        containers :=
          [{ name := "workspace"
             image := ref
             env := [⟨"SOURCE_DATE_EPOCH", toString task.buildDateEpoch⟩]
             args := [task.path, task.sourceDir]
             resources := rr
             volumeMounts := [⟨"tmp-dir-bundle-builder", "/tmp"⟩]
             privileged := true }]
        restartPolicy := "Never"
        automountServiceAccountToken := false
        nodeSelector := [("kubernetes.io/arch", goarch)]
        tolerations := tols
        serviceAccountName := sa
        seccompProfileType := "RuntimeDefault"
        volumes := ["tmp-dir-bundle-builder"]
        affinity :=
          if mf ≠ "" then
            some ⟨[⟨[⟨"cloud.google.com/machine-family", "In", [mf]⟩]⟩]⟩
          else none }

/-- The affinity of a successfully built pod (`none` for an error). -/
def podAffinity (r : Except String Pod) : Option NodeAffinity :=
  match r with
  | .ok p => p.affinity
  | .error _ => none

/-! ## Tar / layer builder (`tarAddFS`, `layer`, `renderEntrypoint`)

A file tree is embedded as a list of root entries; `fs.WalkDir` reads each
directory's entries in lexical order, visits a directory before its
contents, skips the root `"."` entry, and hard-errors on any entry that is
neither a directory nor a regular file.  A produced layer is embedded as
its uncompressed tar entry list (the gzip wrapper applied by
`tarball.LayerFromOpener` is an external, content-determined step). -/

/-- One tar archive entry: header name, mode, directory flag, contents. -/
structure TarEntry where
  name : String
  mode : Nat
  isDir : Bool
  contents : String
deriving DecidableEq, Repr

/-- A file-tree entry: a regular file, a directory, or any other kind of
file (symlink, device, ...), which the tar builder rejects. -/
inductive FSEntry where
  | file (name : String) (mode : Nat) (contents : String) : FSEntry
  | dir (name : String) (mode : Nat) (entries : List FSEntry) : FSEntry
  | special (name : String) : FSEntry
deriving Repr

/-- The name of a file-tree entry. -/
def FSEntry.name : FSEntry → String
  | .file n _ _ => n
  | .dir n _ _ => n
  | .special n => n

/-- Lexical ordering of directory entries, as `fs.ReadDir` guarantees. -/
def sortByName (l : List FSEntry) : List FSEntry :=
  List.insertionSort (fun a b => a.name ≤ b.name) l

/-- Recursively order every directory's entries lexically; this reflects
`fs.WalkDir` reading each directory in lexical order. -/
def sortFS : FSEntry → FSEntry
  | .file n m c => .file n m c
  | .special n => .special n
  | .dir n m es => .dir n m (sortByName (es.attach.map fun x => sortFS x.1))
decreasing_by
  have h := List.sizeOf_lt_of_mem x.2
  have h₂ : sizeOf es < sizeOf (FSEntry.dir n m es) := by
    simp only [FSEntry.dir.sizeOf_spec]
    omega
  omega

mutual
/-- Walk one (already lexically ordered) entry under a directory path,
emitting its tar entries, as the `fs.WalkDir` callback in `tarAddFS` does:
a header for the entry itself, then — for directories — the entries of its
contents; a hard error for non-regular non-directory files. -/
def tarWalkEntry (dirPath : String) : FSEntry → Except String (List TarEntry)
  | .file n m c => .ok [⟨dirPath ++ n, m, false, c⟩]
  | .special _ => .error "tar: cannot add non-regular file"
  | .dir n m es => do
    let sub ← tarWalkList (dirPath ++ n ++ "/") es
    .ok (⟨dirPath ++ n, m, true, ""⟩ :: sub)

/-- Walk a list of (already lexically ordered) sibling entries in order. -/
def tarWalkList (dirPath : String) : List FSEntry → Except String (List TarEntry)
  | [] => .ok []
  | e :: es => do
    let h ← tarWalkEntry dirPath e
    let t ← tarWalkList dirPath es
    .ok (h ++ t)
end

/-- `tarAddFS` from bundle.go: walk the file tree in lexical order (root
`"."` skipped), writing a tar header for every directory and regular file
and the contents of every regular file; any other file type is an error. -/
def tarAddFS (root : List FSEntry) : Except String (List TarEntry) :=
  tarWalkList "" (sortByName (root.map sortFS))

/-- `layer` from bundle.go: the tar stream of a file tree, exposed as a
layer (compression and digesting are external content-determined steps). -/
def layer (srcfs : List FSEntry) : Except String (List TarEntry) :=
  tarAddFS srcfs

/-- `Entrypoint` from bundle.go. -/
structure Entrypoint where
  flags : List String
  gcsFuseMounts : List GCSFuseMount
deriving DecidableEq, Repr

/-- One iteration of the mount range block of `entrypointTemplate`. -/
def renderMount (m : GCSFuseMount) : String :=
  "\nmkdir -p " ++ m.mount ++ "\ngcsfuse -o ro --implicit-dirs " ++
  (if m.onlyDir ≠ "" then " --only-dir " ++ m.onlyDir ++ " " else "") ++
  " " ++ m.bucket ++ " " ++ m.mount ++ "\n"

/-- One iteration of the flags range block of `entrypointTemplate`. -/
def renderFlag (f : String) : String :=
  " " ++ f ++ " \\\n"

/-- The text `entrypointTmpl.Execute` produces for an `Entrypoint`:
the fixed `entrypointTemplate` from bundle.go with the mount and flag
range blocks expanded in input order. -/
def renderEntrypointScript (e : Entrypoint) : String :=
  "# generated by wolfictl bundle\nset -eux\n\n" ++
  String.join (e.gcsFuseMounts.map renderMount) ++
  "\n\n# TODO: Should this be in the bundle?\nmelange keygen local-melange.rsa\n\n" ++
  "# Generate this source-dir in case it doesn\x27t exist.\n# TODO: We shouldn\x27t need this.\nmkdir -p $2\n\n" ++
  "melange build $1 \\\n --gcplog \\\n --source-dir $2 \\\n" ++
  String.join (e.flags.map renderFlag) ++
  "\n\ntar -C packages -czvf packages.tar.gz .\n\n# TODO: Content-Type\ncurl --upload-file packages.tar.gz -H \x22Content-Type: application/octet-stream\x22 $PACKAGES_UPLOAD_URL\n\nsha256sum packages.tar.gz\nsha256sum packages.tar.gz | cut -d\x27 \x27 -f1 > /dev/termination-log\n"

/-- `renderEntrypoint` from bundle.go: a single-entry tar layer holding the
rendered script as `entrypoint.sh`, mode `0755`, sized to its bytes. -/
def renderEntrypoint (e : Entrypoint) : List TarEntry :=
  [⟨"entrypoint.sh", 0o755, false, renderEntrypointScript e⟩]

/-! ## Image composer (`New`) -/

structure Platform where
  os : String
  architecture : String
deriving DecidableEq, Repr

/-- The runtime-configuration fields of an image config that `New` touches. -/
structure ImageConfig where
  entrypoint : List String
  cmd : List String
  workingDir : String
deriving DecidableEq, Repr

structure Image where
  mediaType : String
  layers : List (List TarEntry)
  config : ImageConfig
deriving DecidableEq, Repr

/-- `mutate.MediaType(empty.Image, ggcrtypes.OCIManifestSchema1)`:
an empty image with the OCI manifest media type. -/
def emptyImage : Image :=
  ⟨"application/vnd.oci.image.manifest.v1+json", [], ⟨[], [], ""⟩⟩

/-- First-match lookup in an association list keyed by strings. -/
def lookupStr {α : Type} : List (String × α) → String → Option α
  | [], _ => none
  | (k₂, v) :: rest, k => if k₂ = k then some v else lookupStr rest k

/-- Overwriting insert into an association list (Go map assignment). -/
def assocInsert {α : Type} (k : String) (v : α) :
    List (String × α) → List (String × α)
  | [] => [(k, v)]
  | (k₂, v₂) :: rest =>
    if k₂ = k then (k, v) :: rest else (k₂, v₂) :: assocInsert k v rest

/-- A base-index manifest entry: digest plus platform descriptor. -/
structure BaseDesc where
  digest : String
  platform : Platform
deriving Repr

/-- A base image index: its manifest list and a digest-indexed image
fetcher (`base.Image`), `none` embedding a fetch failure. -/
structure BaseIndex where
  manifests : List BaseDesc
  images : String → Option Image

/-- The `haveArchs` map of `New`: normalized platform architecture to
descriptor, later base manifests overwriting earlier ones. -/
def buildHaveArchs (ms : List BaseDesc) : List (String × BaseDesc) :=
  ms.foldl (fun acc d => assocInsert (parseArchitecture d.platform.architecture) d acc) []

structure IndexEntry where
  image : Image
  platform : Platform
deriving Repr

structure OutIndex where
  entries : List IndexEntry
deriving Repr

/-- The per-architecture loop body of `New`: resolve the base image and
platform for the architecture (the empty OCI image and a fresh
`linux`/arch platform when the base index lacks it), build the
common-files and source layers, look up the architecture's entrypoint
(a fatal error when absent), append the three layers in fixed order, and
rewrite the config to run `/bin/sh /entrypoint.sh` from `/`. -/
def composeArch (base : BaseIndex) (haveArchs : List (String × BaseDesc))
    (entrypoints : List (String × Entrypoint))
    (commonfiles srcfs : List FSEntry) (arch : String) :
    Except String IndexEntry := do
  let bp : Image × Platform ←
    match lookupStr haveArchs arch with
    | some desc =>
      match base.images desc.digest with
      | some img => .ok (img, desc.platform)
      | none => .error ("fetching base image " ++ desc.digest)
    | none => .ok (emptyImage, ⟨"linux", arch⟩)
  let commonLayer ← layer commonfiles
  let sourceLayer ← layer srcfs
  let ep ←
    match lookupStr entrypoints arch with
    | some e => .ok e
    | none => .error ("unexpected arch \x22" ++ arch ++ "\x22 for entrypoints")
  let entrypointLayer := renderEntrypoint ep
  let img : Image :=
    { bp.1 with
      layers := bp.1.layers ++ [commonLayer, sourceLayer, entrypointLayer]
      config :=
        { bp.1.config with
          entrypoint := ["/bin/sh", "/entrypoint.sh"]
          workingDir := "/" } }
  .ok ⟨img, bp.2⟩

/-- The `New` loop over the wanted architectures, collecting one index
entry per architecture and stopping at the first error. -/
def composeArchs (base : BaseIndex) (haveArchs : List (String × BaseDesc))
    (entrypoints : List (String × Entrypoint))
    (commonfiles srcfs : List FSEntry) :
    List String → Except String (List IndexEntry)
  | [] => .ok []
  | a :: as => do
    let e ← composeArch base haveArchs entrypoints commonfiles srcfs a
    let rest ← composeArchs base haveArchs entrypoints commonfiles srcfs as
    .ok (e :: rest)

/-- `New` from bundle.go: compose one image per distinct entrypoint
architecture atop the base index and collect them into a fresh index. -/
def New (base : BaseIndex) (entrypoints : List (String × Entrypoint))
    (commonfiles srcfs : List FSEntry) : Except String OutIndex := do
  let haveArchs := buildHaveArchs base.manifests
  let wantArchs := (entrypoints.map Prod.fst).dedup
  let entries ← composeArchs base haveArchs entrypoints commonfiles srcfs wantArchs
  .ok ⟨entries⟩

/-! ## JSON documents and the Task codec

Layer payloads are JSON documents; they are embedded at the level of the
JSON value tree (string escaping inside `encoding/json` is an external,
injective byte-level step). -/

inductive Json where
  | null : Json
  | jbool (b : Bool) : Json
  | jnum (n : Int) : Json
  | jstr (s : String) : Json
  | jarr (elems : List Json) : Json
  | jobj (fields : List (String × Json)) : Json
deriving Repr

/-- Unmarshal a JSON value into a Go string. -/
def Json.asString : Json → Option String
  | .jstr s => some s
  | _ => none

/-- Unmarshal a JSON value into a Go integer. -/
def Json.asInt : Json → Option Int
  | .jnum n => some n
  | _ => none

/-- Unmarshal a JSON value into a Go unsigned integer. -/
def Json.asNat : Json → Option Nat
  | .jnum n => if n < 0 then none else some n.toNat
  | _ => none

/-- Sequence a fallible conversion over a list, failing on the first
failure (the behavior of `encoding/json` on array elements). -/
def mapMOption {α β : Type} (f : α → Option β) : List α → Option (List β)
  | [] => some []
  | a :: as => do
    let b ← f a
    let bs ← mapMOption f as
    some (b :: bs)

/-- Unmarshal a JSON value into a Go string slice. -/
def Json.asStringList : Json → Option (List String)
  | .jarr xs => mapMOption Json.asString xs
  | _ => none

/-- `encoding/json` object-field decode: a missing key leaves the Go zero
value; a present key must unmarshal with `conv`. -/
def optField {α : Type} (fields : List (String × Json)) (k : String)
    (conv : Json → Option α) (dflt : α) : Option α :=
  match lookupStr fields k with
  | none => some dflt
  | some j => conv j

/-- Modelled from the spec: the push-side serializer of melange
`config.Resources` is not under src/; per the spec's interface section the
resources object carries `cpu` and `memory`, omitted when empty. -/
def Resources.toJsonFields (r : Resources) : List (String × Json) :=
  (if r.cpu = "" then [] else [("cpu", Json.jstr r.cpu)]) ++
  (if r.memory = "" then [] else [("memory", Json.jstr r.memory)])

/-- Unmarshal of melange `config.Resources` (fields `cpu`, `memory`). -/
def Resources.fromJson : Json → Option Resources
  | .jobj fields => do
    let cpu ← optField fields "cpu" Json.asString ""
    let memory ← optField fields "memory" Json.asString ""
    some ⟨cpu, memory⟩
  | _ => none

/-- Modelled from the spec: the push-side serializer of `Task` is not
under src/; this follows the `json` tags on the `Task` struct in bundle.go
(`package`, `version`, `epoch` always present; `path`, `sourceDir`,
`architectures`, `subpackages`, `resources` omitted when empty) and the
spec's tasks-layer field list, with the build timestamp as its epoch
value. -/
def Task.toJson (t : Task) : Json :=
  .jobj
    ([("package", .jstr t.package), ("version", .jstr t.version),
      ("epoch", .jnum t.epoch)] ++
     (if t.path = "" then [] else [("path", .jstr t.path)]) ++
     (if t.sourceDir = "" then [] else [("sourceDir", .jstr t.sourceDir)]) ++
     (if t.architectures = [] then []
      else [("architectures", .jarr (t.architectures.map .jstr))]) ++
     (if t.subpackages = [] then []
      else [("subpackages", .jarr (t.subpackages.map .jstr))]) ++
     (match t.resources with
      | none => []
      | some r => [("resources", .jobj r.toJsonFields)]) ++
     [("buildDateEpoch", .jnum t.buildDateEpoch)])

/-- `encoding/json` unmarshal of one `Task` object, per the struct's
`json` tags: each missing field leaves the zero value. -/
def Task.fromJson : Json → Option Task
  | .jobj fields => do
    let package ← optField fields "package" Json.asString ""
    let version ← optField fields "version" Json.asString ""
    let epoch ← optField fields "epoch" Json.asNat 0
    let path ← optField fields "path" Json.asString ""
    let sourceDir ← optField fields "sourceDir" Json.asString ""
    let architectures ← optField fields "architectures" Json.asStringList []
    let subpackages ← optField fields "subpackages" Json.asStringList []
    let resources ←
      match lookupStr fields "resources" with
      | none => some none
      | some j => (Resources.fromJson j).map some
    let buildDateEpoch ← optField fields "buildDateEpoch" Json.asInt 0
    some ⟨package, version, epoch, path, sourceDir, architectures,
          subpackages, resources, buildDateEpoch⟩
  | _ => none

/-- The tasks-layer decode from `Pull`: a JSON array of Task objects
(JSON `null` leaves the nil slice, as `encoding/json` does). -/
def tasksFromJson : Json → Option (List Task)
  | .null => some []
  | .jarr xs => mapMOption Task.fromJson xs
  | _ => none

/-- The tasks-layer JSON form of a task list. -/
def tasksToJson (ts : List Task) : Json :=
  .jarr (ts.map Task.toJson)

/-! ## Dependency graph model -/

/-- The fields of `graph.Edge[string]` the bundle transports. -/
structure Edge where
  source : String
  target : String
deriving DecidableEq, Repr

/-- `Graph` from bundle.go: package identifier to neighbor to edge, as an
ordered association structure (a Go map's JSON object form).  The engine
only transports it. -/
abbrev DependencyGraph := List (String × List (String × Edge))

/-- Unmarshal one `graph.Edge[string]` (external type: `Source`/`Target`
fields; further edge properties are not inspected by the bundle engine). -/
def Edge.fromJson : Json → Option Edge
  | .jobj fields => do
    let s ← optField fields "Source" Json.asString ""
    let t ← optField fields "Target" Json.asString ""
    some ⟨s, t⟩
  | _ => none

/-- Unmarshal one adjacency row of the graph. -/
def innerGraphFromJson : Json → Option (List (String × Edge))
  | .null => some []
  | .jobj fields =>
    mapMOption (fun kv => (Edge.fromJson kv.2).map (fun e => (kv.1, e))) fields
  | _ => none

/-- The graph-layer decode from `Pull`: JSON object of adjacency rows. -/
def graphFromJson : Json → Option DependencyGraph
  | .null => some []
  | .jobj fields =>
    mapMOption (fun kv => (innerGraphFromJson kv.2).map (fun g => (kv.1, g))) fields
  | _ => none

/-! ## Bundle decoder (`Pull`) -/

/-- One manifest entry of the fetched bundle index: digest and the
manifest-level annotation map. -/
structure ManifestDesc where
  digest : String
  annotations : List (String × String)
deriving DecidableEq, Repr

/-- A fetched per-manifest image: its layer list, each layer's
decompressed bytes given as their JSON document when the bytes read and
parse, `none` when reading or JSON-decoding the bytes fails. -/
structure PulledImage where
  layers : List (Option Json)

/-- The fetched index manifest. -/
structure IndexModel where
  manifests : List ManifestDesc

/-- A `name.Digest`: repository qualified by a digest.  The zero value has
both parts empty. -/
structure DigestRef where
  repositoryName : String
  digestValue : String
deriving DecidableEq, Repr

def DigestRef.zero : DigestRef := ⟨"", ""⟩

/-- `Bundles` from bundle.go. -/
structure Bundles where
  graph : DependencyGraph
  tasks : List Task
  runtime : DigestRef

/-- The error outcomes of `Pull`, by construction site.  `digests` below
records which digests the error value itself embeds: the zero-layer errors
are built with `fmt.Errorf` over the offending digest, while image-fetch
and JSON-decode failures return the collaborator's error unwrapped. -/
inductive PullError where
  | noManifests (ref : String)
  | imageFetch (digest : String)
  | noGraphLayers (digest : String) (ref : String)
  | noTasksLayers (digest : String) (ref : String)
  | decodeFailure (content : Option Json)

/-- The digests a `Pull` error value identifies. -/
def PullError.digests : PullError → List String
  | .noManifests _ => []
  | .imageFetch _ => []
  | .noGraphLayers d _ => [d]
  | .noTasksLayers d _ => [d]
  | .decodeFailure _ => []

/-- The classification annotation of a manifest:
`desc.Annotations["dev.wolfi.bundle"]`, empty when absent. -/
def classificationOf (d : ManifestDesc) : String :=
  (lookupStr d.annotations "dev.wolfi.bundle").getD ""

/-- The manifest loop of `Pull`: fold over the index's manifests,
dispatching on the classification annotation.  `graph` and `tasks` read
and decode the first layer (zero layers or a failed decode aborts);
`runtime` records the repository qualified by the manifest digest without
reading any layer; anything else is ignored. -/
def pullLoop (repo : String) (pullRef : String)
    (images : String → Option PulledImage) :
    List ManifestDesc → Bundles → Except PullError Bundles
  | [], b => .ok b
  | d :: ds, b =>
    let cls := classificationOf d
    if cls = "graph" then
      match images d.digest with
      | none => .error (.imageFetch d.digest)
      | some img =>
        match img.layers with
        | [] => .error (.noGraphLayers d.digest pullRef)
        | l₀ :: _ =>
          match l₀ with
          | none => .error (.decodeFailure none)
          | some j =>
            match graphFromJson j with
            | none => .error (.decodeFailure (some j))
            | some g => pullLoop repo pullRef images ds { b with graph := g }
    else if cls = "tasks" then
      match images d.digest with
      | none => .error (.imageFetch d.digest)
      | some img =>
        match img.layers with
        | [] => .error (.noTasksLayers d.digest pullRef)
        | l₀ :: _ =>
          match l₀ with
          | none => .error (.decodeFailure none)
          | some j =>
            match tasksFromJson j with
            | none => .error (.decodeFailure (some j))
            | some ts => pullLoop repo pullRef images ds { b with tasks := ts }
    else if cls = "runtime" then
      pullLoop repo pullRef images ds { b with runtime := ⟨repo, d.digest⟩ }
    else
      pullLoop repo pullRef images ds b

/-- `Pull` from bundle.go, from the point where the index manifest has
been fetched: fail on an empty manifest list, then classify every
manifest.  `repo` is the repository of the parsed input reference
(`ref.Context()`), `pullRef` the original reference string used in error
messages. -/
def Pull (repo pullRef : String) (im : IndexModel)
    (images : String → Option PulledImage) : Except PullError Bundles :=
  if im.manifests = [] then .error (.noManifests pullRef)
  else pullLoop repo pullRef images im.manifests ⟨[], [], DigestRef.zero⟩

/-! # Theorems -/

/-- `cutChars` finds nothing exactly when the separator does not occur. -/
theorem cutChars_eq_none_iff (sep : Char) (cs : List Char) :
    cutChars sep cs = none ↔ sep ∉ cs := by
  induction cs with
  | nil => simp [cutChars]
  | cons c cs ih =>
    simp only [cutChars, List.mem_cons]
    by_cases h : c = sep
    · simp [h]
    · rw [if_neg h, Option.map_eq_none', ih]
      constructor
      · intro hn hm
        rcases hm with hm | hm
        · exact h hm.symm
        · exact hn hm
      · intro hn hm
        exact hn (Or.inr hm)

/-- C9: the mount spec parser splits its input at the first `:` and the
part before it at the first `/`: `Parse("bucket/dir:/mnt")` yields
bucket/subdir/mount `"bucket"`/`"dir"`/`"/mnt"`, `Parse("bucket:/mnt")`
yields an empty subdir, every input without `:` fails with a format
error, and every input containing `:` succeeds (no further validation). -/
theorem C9_mount_spec_parsing :
    ParseGCSFuseMount "bucket/dir:/mnt" = .ok ⟨"bucket", "/mnt", "dir"⟩ ∧
    ParseGCSFuseMount "bucket:/mnt" = .ok ⟨"bucket", "/mnt", ""⟩ ∧
    (∀ s : String, ':' ∉ s.data → (ParseGCSFuseMount s).isOk = false) ∧
    (∀ s : String, ':' ∈ s.data → (ParseGCSFuseMount s).isOk = true) := by
  refine ⟨rfl, rfl, ?_, ?_⟩
  · intro s h
    have hc : cutChars ':' s.data = none := (cutChars_eq_none_iff ':' s.data).2 h
    simp [ParseGCSFuseMount, strCut, hc, Except.isOk, Except.toBool]
  · intro s h
    have hc : cutChars ':' s.data ≠ none := by
      rw [Ne, cutChars_eq_none_iff]
      exact fun hn => hn h
    match hcc : cutChars ':' s.data with
    | none => exact absurd hcc hc
    | some p =>
      simp [ParseGCSFuseMount, strCut, hcc, Except.isOk, Except.toBool]

/-- C9 witness: a concrete separator-free input fails and a concrete
colon-bearing input succeeds. -/
theorem C9_mount_spec_parsing_witness :
    (':' ∉ "no-delimiter".data ∧ (ParseGCSFuseMount "no-delimiter").isOk = false) ∧
    (':' ∈ "a:b".data ∧ (ParseGCSFuseMount "a:b").isOk = true) :=
  ⟨⟨by decide, C9_mount_spec_parsing.2.2.1 "no-delimiter" (by decide)⟩,
   ⟨by decide, C9_mount_spec_parsing.2.2.2 "a:b" (by decide)⟩⟩

/-- C1: `Podspec` resolves resources from the defaults CPU `"2"` /
Memory `"4Gi"` with independent per-field non-empty overrides, parses the
CPU as a decimal, clamps to 48 only on `arm64` when above 48, multiplies
by 0.98, and builds requests-only resource requirements; a CPU override
`"96"` yields the adjusted value 47.04 on arm64 and 94.08 elsewhere. -/
theorem C1_podspec_cpu_resources :
    (∀ (task : Task) (ref arch mFamily sa ns : String) (c : Dec) (pod : Pod),
      parseDecimal (resolveResources task).cpu = some c →
      Podspec task ref arch mFamily sa ns = .ok pod →
      ∀ ct ∈ pod.containers,
        ct.resources.requests =
          some ⟨formatF (adjustedCpu (parseArchitecture arch) c),
                (resolveResources task).memory⟩ ∧
        ct.resources.limits = none) ∧
    (∀ t : Task, t.resources = none → resolveResources t = ⟨"2", "4Gi"⟩) ∧
    (∀ (t : Task) (r : Resources), t.resources = some r →
      resolveResources t = ⟨if r.cpu = "" then "2" else r.cpu,
                            if r.memory = "" then "4Gi" else r.memory⟩) ∧
    parseDecimal "96" = some ⟨96, 0⟩ ∧
    adjustedCpu "arm64" ⟨96, 0⟩ = ⟨4704, 2⟩ ∧
    Dec.toRat ⟨4704, 2⟩ = 47.04 ∧
    (∀ g : String, g ≠ "arm64" → adjustedCpu g ⟨96, 0⟩ = ⟨9408, 2⟩) ∧
    Dec.toRat ⟨9408, 2⟩ = 94.08 ∧
    formatF (adjustedCpu "arm64" ⟨96, 0⟩) = "47.040000" ∧
    formatF (adjustedCpu "amd64" ⟨96, 0⟩) = "94.080000" := by
  refine ⟨?_, ?_, ?_, by decide, by decide, ?_, ?_, ?_, by decide, by decide⟩
  · intro task ref arch mFamily sa ns c pod hparse hok ct hct
    simp only [Podspec, hparse] at hok
    cases hok
    simp only [List.mem_singleton] at hct
    subst hct
    exact ⟨rfl, rfl⟩
  · intro t h
    simp [resolveResources, h]
  · intro t r h
    simp [resolveResources, h]
  · norm_num [Dec.toRat]
  · intro g hg
    simp [adjustedCpu, clampArmCpu, hg]
  · norm_num [Dec.toRat]

/-- C1 witness: the universally quantified resource law evaluated on a
concrete task with CPU override `"96"` on `aarch64`. -/
theorem C1_podspec_cpu_resources_witness :
    parseDecimal (resolveResources ⟨"p", "1", 0, "", "", [], [], some ⟨"96", ""⟩, 0⟩).cpu
      = some ⟨96, 0⟩ ∧
    ∃ pod : Pod,
      Podspec ⟨"p", "1", 0, "", "", [], [], some ⟨"96", ""⟩, 0⟩ "ref" "aarch64" "" "sa" "ns"
        = .ok pod ∧
      ∀ ct ∈ pod.containers,
        ct.resources.requests =
          some ⟨formatF (adjustedCpu (parseArchitecture "aarch64") ⟨96, 0⟩),
                (resolveResources ⟨"p", "1", 0, "", "", [], [], some ⟨"96", ""⟩, 0⟩).memory⟩ ∧
        ct.resources.limits = none := by
  refine ⟨by decide, ?_⟩
  cases hok : Podspec ⟨"p", "1", 0, "", "", [], [], some ⟨"96", ""⟩, 0⟩ "ref" "aarch64" "" "sa" "ns" with
  | error e =>
    have hko : (Podspec ⟨"p", "1", 0, "", "", [], [], some ⟨"96", ""⟩, 0⟩
        "ref" "aarch64" "" "sa" "ns").isOk = true := by decide
    rw [hok] at hko
    simp [Except.isOk, Except.toBool] at hko
  | ok pod =>
    exact ⟨pod, rfl,
      C1_podspec_cpu_resources.1 _ "ref" "aarch64" "" "sa" "ns" ⟨96, 0⟩ pod (by decide) hok⟩

/-- C2 counterexample: on the 64-bit ARM architecture with an *empty*
machine-family hint, `Podspec` still attaches the hard node-affinity
constraint (value `"t2a"`), so the affinity is not attached only when a
non-empty hint is given. -/
theorem C2_affinity_counterexample :
    podAffinity (Podspec ⟨"pkg", "1", 0, "", "", [], [], none, 0⟩ "ref" "arm64" "" "sa" "ns")
      = some ⟨[⟨[⟨"cloud.google.com/machine-family", "In", ["t2a"]⟩]⟩]⟩ := by
  decide

/-- C2 (amended): `Podspec` attaches the single-value machine-family
node-affinity constraint iff the machine-family hint is non-empty or the
normalized architecture is `arm64`; on `arm64` the single value is the
fixed `"t2a"` regardless of the caller's hint (even an empty one), and
off `arm64` it is the caller's non-empty hint. -/
theorem C2_affinity_amended :
    ∀ (task : Task) (ref arch mFamily sa ns : String) (pod : Pod),
      Podspec task ref arch mFamily sa ns = .ok pod →
      (parseArchitecture arch = "arm64" →
        pod.affinity = some ⟨[⟨[⟨"cloud.google.com/machine-family", "In", ["t2a"]⟩]⟩]⟩) ∧
      (parseArchitecture arch ≠ "arm64" → mFamily ≠ "" →
        pod.affinity = some ⟨[⟨[⟨"cloud.google.com/machine-family", "In", [mFamily]⟩]⟩]⟩) ∧
      (pod.affinity = none ↔ mFamily = "" ∧ parseArchitecture arch ≠ "arm64") := by
  intro task ref arch mFamily sa ns pod hok
  rcases hparse : parseDecimal (resolveResources task).cpu with _ | c
  · simp only [Podspec, hparse] at hok
    exact absurd hok (by simp)
  · simp only [Podspec, hparse] at hok
    cases hok
    by_cases ha : parseArchitecture arch = "arm64"
    · simp [ha]
    · by_cases hm : mFamily = ""
      · simp [ha, hm]
      · simp [ha, hm]

/-- C2 (amended) witness: concrete non-ARM call with a non-empty hint. -/
theorem C2_affinity_amended_witness :
    ∃ pod : Pod,
      Podspec ⟨"pkg", "1", 0, "", "", [], [], none, 0⟩ "ref" "x86_64" "n2" "sa" "ns" = .ok pod ∧
      pod.affinity = some ⟨[⟨[⟨"cloud.google.com/machine-family", "In", ["n2"]⟩]⟩]⟩ := by
  cases hok : Podspec ⟨"pkg", "1", 0, "", "", [], [], none, 0⟩ "ref" "x86_64" "n2" "sa" "ns" with
  | error e =>
    have hko : (Podspec ⟨"pkg", "1", 0, "", "", [], [], none, 0⟩
        "ref" "x86_64" "n2" "sa" "ns").isOk = true := by decide
    rw [hok] at hko
    simp [Except.isOk, Except.toBool] at hko
  | ok pod =>
    exact ⟨pod, rfl,
      (C2_affinity_amended _ "ref" "x86_64" "n2" "sa" "ns" pod hok).2.1 (by decide) (by decide)⟩

/-- C10: `Podspec` returns an error exactly when the resolved CPU string
is unparsable as a decimal; the memory override never influences whether
an error is returned (the quantity conversion is unguarded, so memory is
not validated via the error path). -/
theorem C10_error_iff_cpu_unparsable :
    (∀ (task : Task) (ref arch mFamily sa ns : String),
      (∃ e, Podspec task ref arch mFamily sa ns = .error e) ↔
        parseDecimal (resolveResources task).cpu = none) ∧
    (∀ (task : Task) (r₁ r₂ : Resources) (ref arch mFamily sa ns : String),
      r₁.cpu = r₂.cpu →
      (Podspec { task with resources := some r₁ } ref arch mFamily sa ns).isOk =
        (Podspec { task with resources := some r₂ } ref arch mFamily sa ns).isOk) := by
  constructor
  · intro task ref arch mFamily sa ns
    rcases hparse : parseDecimal (resolveResources task).cpu with _ | c
    · simp [Podspec, hparse]
    · simp [Podspec, hparse]
  · intro task r₁ r₂ ref arch mFamily sa ns hcpu
    have hres : (resolveResources { task with resources := some r₁ }).cpu =
        (resolveResources { task with resources := some r₂ }).cpu := by
      simp [resolveResources, hcpu]
    rcases hparse : parseDecimal (resolveResources { task with resources := some r₂ }).cpu
        with _ | c <;>
    · have hparse₁ : parseDecimal (resolveResources { task with resources := some r₁ }).cpu
          = _ := hres ▸ hparse
      simp [Podspec, hparse, hparse₁, Except.isOk, Except.toBool]

/-- C10 witness: an invalid memory override (with a parsable CPU) is not
reported as an error, while an unparsable CPU is. -/
theorem C10_error_iff_cpu_unparsable_witness :
    (¬ ∃ e, Podspec ⟨"p", "1", 0, "", "", [], [], some ⟨"", "not-a-quantity"⟩, 0⟩
        "ref" "amd64" "" "sa" "ns" = .error e) ∧
    (∃ e, Podspec ⟨"p", "1", 0, "", "", [], [], some ⟨"zzz", "4Gi"⟩, 0⟩
        "ref" "amd64" "" "sa" "ns" = .error e) := by
  constructor
  · intro h
    have := (C10_error_iff_cpu_unparsable.1
      ⟨"p", "1", 0, "", "", [], [], some ⟨"", "not-a-quantity"⟩, 0⟩
      "ref" "amd64" "" "sa" "ns").1 h
    exact absurd this (by decide)
  · exact (C10_error_iff_cpu_unparsable.1
      ⟨"p", "1", 0, "", "", [], [], some ⟨"zzz", "4Gi"⟩, 0⟩
      "ref" "amd64" "" "sa" "ns").2 (by decide)

/-! ## Composer theorems -/

theorem except_bind_error {ε α β : Type} (e : ε) (f : α → Except ε β) :
    (Except.error e : Except ε α) >>= f = Except.error e := rfl

theorem except_bind_ok {ε α β : Type} (a : α) (f : α → Except ε β) :
    (Except.ok a : Except ε α) >>= f = f a := rfl

theorem except_isOk_error {ε α : Type} (e : ε) :
    (Except.error e : Except ε α).isOk = false := rfl

theorem except_isOk_ok {ε α : Type} (a : α) :
    (Except.ok a : Except ε α).isOk = true := rfl

theorem except_bind_isOk_false {ε α β : Type} (x : Except ε α)
    (f : α → Except ε β) (h : x.isOk = false) : (x >>= f).isOk = false := by
  cases x with
  | error e => rfl
  | ok a => exact absurd h (by simp [except_isOk_ok])

/-- The per-architecture loop body fails whenever the architecture has no
entrypoint, on every path through the earlier steps. -/
theorem composeArch_no_entrypoint (base : BaseIndex)
    (haveArchs : List (String × BaseDesc))
    (entrypoints : List (String × Entrypoint))
    (commonfiles srcfs : List FSEntry) (arch : String)
    (h : lookupStr entrypoints arch = none) :
    (composeArch base haveArchs entrypoints commonfiles srcfs arch).isOk = false := by
  unfold composeArch
  rcases h₁ : lookupStr haveArchs arch with _ | desc <;>
    simp only [h₁, except_bind_ok, except_bind_error]
  · rcases h₃ : layer commonfiles with e₃ | cl <;>
      simp only [h₃, except_bind_ok, except_bind_error, except_isOk_error]
    rcases h₄ : layer srcfs with e₄ | sl <;>
      simp only [h₄, except_bind_ok, except_bind_error, except_isOk_error]
    simp only [h, except_bind_ok, except_bind_error, except_isOk_error]
  · rcases h₂ : base.images desc.digest with _ | bi <;>
      simp only [h₂, except_bind_ok, except_bind_error, except_isOk_error]
    rcases h₃ : layer commonfiles with e₃ | cl <;>
      simp only [h₃, except_bind_ok, except_bind_error, except_isOk_error]
    rcases h₄ : layer srcfs with e₄ | sl <;>
      simp only [h₄, except_bind_ok, except_bind_error, except_isOk_error]
    simp only [h, except_bind_ok, except_bind_error, except_isOk_error]

/-- C3: composing with a requested architecture that is absent from the
entrypoints-by-arch map fails — the compose loop over any wanted
architecture list containing such an architecture never returns an index
(in `New` itself the wanted set is the entrypoint key set, so the guard
makes the mismatch impossible to slip through). -/
theorem C3_missing_entrypoint_fails :
    ∀ (base : BaseIndex) (haveArchs : List (String × BaseDesc))
      (entrypoints : List (String × Entrypoint))
      (commonfiles srcfs : List FSEntry)
      (wantArchs : List String) (arch : String),
      arch ∈ wantArchs →
      lookupStr entrypoints arch = none →
      (composeArchs base haveArchs entrypoints commonfiles srcfs wantArchs).isOk = false := by
  intro base haveArchs entrypoints commonfiles srcfs wantArchs arch hmem hlook
  induction wantArchs with
  | nil => cases hmem
  | cons a as ih =>
    simp only [composeArchs]
    rcases hca : composeArch base haveArchs entrypoints commonfiles srcfs a with e | entry
    · simp [except_bind_error, except_isOk_error]
    · rcases List.mem_cons.mp hmem with rfl | hmem₂
      · have hbad := composeArch_no_entrypoint base haveArchs entrypoints
          commonfiles srcfs arch hlook
        rw [hca] at hbad
        exact absurd hbad (by simp [except_isOk_ok])
      · rw [except_bind_ok]
        exact except_bind_isOk_false _ _ (ih hmem₂)

/-- C3 witness: a concrete wanted architecture with an empty entrypoint
map makes the compose loop fail. -/
theorem C3_missing_entrypoint_fails_witness :
    ("amd64" ∈ ["amd64"] ∧
      lookupStr ([] : List (String × Entrypoint)) "amd64" = none) ∧
    (composeArchs ⟨[], fun _ => none⟩ [] [] [] [] ["amd64"]).isOk = false :=
  ⟨⟨by decide, rfl⟩,
    C3_missing_entrypoint_fails ⟨[], fun _ => none⟩ [] [] [] [] ["amd64"] "amd64"
      (by decide) rfl⟩

/-- What one successfully composed index entry looks like for its
architecture: the config is rewritten to run `/bin/sh /entrypoint.sh`
from `/`, and the layers are the base image's (or none) plus exactly
the common-files, source, and entrypoint layers in that order. -/
theorem composeArch_ok_spec (base : BaseIndex)
    (haveArchs : List (String × BaseDesc))
    (entrypoints : List (String × Entrypoint))
    (commonfiles srcfs : List FSEntry) (arch : String) (e : IndexEntry)
    (hok : composeArch base haveArchs entrypoints commonfiles srcfs arch = .ok e) :
    ∃ cl sl ep,
      layer commonfiles = .ok cl ∧ layer srcfs = .ok sl ∧
      lookupStr entrypoints arch = some ep ∧
      e.image.config.entrypoint = ["/bin/sh", "/entrypoint.sh"] ∧
      e.image.config.workingDir = "/" ∧
      (match lookupStr haveArchs arch with
       | some desc => ∃ bi, base.images desc.digest = some bi ∧
           e.image.layers = bi.layers ++ [cl, sl, renderEntrypoint ep] ∧
           e.image.mediaType = bi.mediaType ∧
           e.platform = desc.platform
       | none =>
           e.image.layers = [cl, sl, renderEntrypoint ep] ∧
           e.platform = ⟨"linux", arch⟩) := by
  unfold composeArch at hok
  rcases h₁ : lookupStr haveArchs arch with _ | desc <;>
    simp only [h₁, except_bind_ok, except_bind_error] at hok <;>
    simp only [h₁]
  · rcases h₃ : layer commonfiles with er | cl <;>
      simp only [h₃, except_bind_ok, except_bind_error] at hok
    · exact Except.noConfusion hok
    · rcases h₄ : layer srcfs with er | sl <;>
        simp only [h₄, except_bind_ok, except_bind_error] at hok
      · exact Except.noConfusion hok
      · rcases h₅ : lookupStr entrypoints arch with _ | ep <;>
          simp only [h₅, except_bind_ok, except_bind_error] at hok
        · exact Except.noConfusion hok
        · cases hok
          exact ⟨cl, sl, ep, rfl, rfl, rfl, rfl, rfl, rfl, rfl⟩
  · rcases h₂ : base.images desc.digest with _ | bi <;>
      simp only [h₂, except_bind_ok, except_bind_error] at hok
    · exact Except.noConfusion hok
    · rcases h₃ : layer commonfiles with er | cl <;>
        simp only [h₃, except_bind_ok, except_bind_error] at hok
      · exact Except.noConfusion hok
      · rcases h₄ : layer srcfs with er | sl <;>
          simp only [h₄, except_bind_ok, except_bind_error] at hok
        · exact Except.noConfusion hok
        · rcases h₅ : lookupStr entrypoints arch with _ | ep <;>
            simp only [h₅, except_bind_ok, except_bind_error] at hok
          · exact Except.noConfusion hok
          · cases hok
            exact ⟨cl, sl, ep, rfl, rfl, rfl, rfl, rfl, bi, rfl, rfl, rfl, rfl⟩

/-- The compose loop pairs each wanted architecture with one entry of the
produced list, each satisfying `composeArch_ok_spec`'s shape. -/
theorem composeArchs_ok_forall (base : BaseIndex)
    (haveArchs : List (String × BaseDesc))
    (entrypoints : List (String × Entrypoint))
    (commonfiles srcfs : List FSEntry) :
    ∀ (wantArchs : List String) (entries : List IndexEntry),
      composeArchs base haveArchs entrypoints commonfiles srcfs wantArchs = .ok entries →
      List.Forall₂ (fun arch e =>
        ∃ cl sl ep,
          layer commonfiles = .ok cl ∧ layer srcfs = .ok sl ∧
          lookupStr entrypoints arch = some ep ∧
          e.image.config.entrypoint = ["/bin/sh", "/entrypoint.sh"] ∧
          e.image.config.workingDir = "/" ∧
          (match lookupStr haveArchs arch with
           | some desc => ∃ bi, base.images desc.digest = some bi ∧
               e.image.layers = bi.layers ++ [cl, sl, renderEntrypoint ep] ∧
               e.image.mediaType = bi.mediaType ∧
               e.platform = desc.platform
           | none =>
               e.image.layers = [cl, sl, renderEntrypoint ep] ∧
               e.platform = ⟨"linux", arch⟩)) wantArchs entries := by
  intro wantArchs
  induction wantArchs with
  | nil =>
    intro entries hok
    cases hok
    exact List.Forall₂.nil
  | cons a as ih =>
    intro entries hok
    simp only [composeArchs] at hok
    rcases hca : composeArch base haveArchs entrypoints commonfiles srcfs a
        with er | entry <;>
      simp only [hca, except_bind_ok, except_bind_error] at hok
    · exact Except.noConfusion hok
    · rcases hcs : composeArchs base haveArchs entrypoints commonfiles srcfs as
          with er | rest <;>
        simp only [hcs, except_bind_ok, except_bind_error] at hok
      · exact Except.noConfusion hok
      · cases hok
        exact List.Forall₂.cons
          (composeArch_ok_spec base haveArchs entrypoints commonfiles srcfs a entry hca)
          (ih rest hcs)

/-- C4: a successful compose returns an index whose entries correspond
one-to-one, in order, with the distinct keys of the entrypoints-by-arch
map; for each architecture the image is the base image for that
architecture when the base index has one (keeping its platform) and the
empty `linux` image otherwise, with exactly the three layers
common-files, source, entrypoint appended in that order and the config
rewritten to entrypoint `/bin/sh /entrypoint.sh`, working directory `/`. -/
theorem C4_compose_structure :
    ∀ (base : BaseIndex) (entrypoints : List (String × Entrypoint))
      (commonfiles srcfs : List FSEntry) (idx : OutIndex),
      New base entrypoints commonfiles srcfs = .ok idx →
      idx.entries.length = (entrypoints.map Prod.fst).dedup.length ∧
      List.Forall₂ (fun arch e =>
        ∃ cl sl ep,
          layer commonfiles = .ok cl ∧ layer srcfs = .ok sl ∧
          lookupStr entrypoints arch = some ep ∧
          e.image.config.entrypoint = ["/bin/sh", "/entrypoint.sh"] ∧
          e.image.config.workingDir = "/" ∧
          (match lookupStr (buildHaveArchs base.manifests) arch with
           | some desc => ∃ bi, base.images desc.digest = some bi ∧
               e.image.layers = bi.layers ++ [cl, sl, renderEntrypoint ep] ∧
               e.image.mediaType = bi.mediaType ∧
               e.platform = desc.platform
           | none =>
               e.image.layers = [cl, sl, renderEntrypoint ep] ∧
               e.platform = ⟨"linux", arch⟩))
        ((entrypoints.map Prod.fst).dedup) idx.entries := by
  intro base entrypoints commonfiles srcfs idx hok
  unfold New at hok
  rcases hcs : composeArchs base (buildHaveArchs base.manifests) entrypoints
      commonfiles srcfs ((entrypoints.map Prod.fst).dedup) with er | entries <;>
    simp only [hcs, except_bind_ok, except_bind_error] at hok
  · exact Except.noConfusion hok
  · cases hok
    have hfa := composeArchs_ok_forall base (buildHaveArchs base.manifests)
      entrypoints commonfiles srcfs _ entries hcs
    exact ⟨(List.Forall₂.length_eq hfa).symm, hfa⟩

/-- C4 witness: the structural law instantiated on composing an empty
base index with entrypoints for two architectures. -/
theorem C4_compose_structure_witness :
    ∃ idx : OutIndex,
      New ⟨[], fun _ => none⟩
        [("amd64", ⟨[], []⟩), ("arm64", ⟨[], []⟩)] [] [] = .ok idx ∧
      idx.entries.length =
        (([("amd64", (⟨[], []⟩ : Entrypoint)), ("arm64", ⟨[], []⟩)].map Prod.fst).dedup).length := by
  cases hok : New ⟨[], fun _ => none⟩
      [("amd64", ⟨[], []⟩), ("arm64", ⟨[], []⟩)] [] [] with
  | error e =>
    have hko : (New ⟨[], fun _ => none⟩
        [("amd64", ⟨[], []⟩), ("arm64", ⟨[], []⟩)] [] []).isOk = true := rfl
    rw [hok] at hko
    exact absurd hko (by simp [except_isOk_error])
  | ok idx =>
    exact ⟨idx, rfl,
      (C4_compose_structure ⟨[], fun _ => none⟩
        [("amd64", ⟨[], []⟩), ("arm64", ⟨[], []⟩)] [] [] idx hok).1⟩

/-! ## Determinism of the layer builders -/

theorem sortFS_name (e : FSEntry) : (sortFS e).name = e.name := by
  cases e <;> simp [sortFS, FSEntry.name]

/-- Lexically sorting directory entries is invariant under permutation
when the entry names are distinct (as they are in a real directory). -/
theorem sortByName_eq_of_perm (l₁ l₂ : List FSEntry)
    (hp : l₁.Perm l₂)
    (hn : l₁.Pairwise (fun a b => a.name ≠ b.name)) :
    sortByName l₁ = sortByName l₂ := by
  haveI instTot : IsTotal FSEntry (fun a b => a.name ≤ b.name) :=
    ⟨fun a b => le_total a.name b.name⟩
  haveI instTrans : IsTrans FSEntry (fun a b => a.name ≤ b.name) :=
    ⟨fun a b c hab hbc => le_trans hab hbc⟩
  haveI instAnti : IsAntisymm FSEntry (fun a b => a.name < b.name) :=
    ⟨fun a b h₁ h₂ => absurd h₂ (lt_asymm h₁)⟩
  have hr₁ : (sortByName l₁).Perm l₁ := List.perm_insertionSort _ l₁
  have hr₂ : (sortByName l₂).Perm l₂ := List.perm_insertionSort _ l₂
  have hp' : (sortByName l₁).Perm (sortByName l₂) := (hr₁.trans hp).trans hr₂.symm
  have hs₁ : (sortByName l₁).Sorted (fun a b => a.name ≤ b.name) :=
    List.sorted_insertionSort _ l₁
  have hs₂ : (sortByName l₂).Sorted (fun a b => a.name ≤ b.name) :=
    List.sorted_insertionSort _ l₂
  have hn₁ : (sortByName l₁).Pairwise (fun a b => a.name ≠ b.name) :=
    (hr₁.pairwise_iff (fun h => Ne.symm h)).2 hn
  have hn₂ : (sortByName l₂).Pairwise (fun a b => a.name ≠ b.name) :=
    (hp'.pairwise_iff (fun h => Ne.symm h)).1 hn₁
  have hstrict : ∀ l : List FSEntry,
      l.Sorted (fun a b => a.name ≤ b.name) →
      l.Pairwise (fun a b => a.name ≠ b.name) →
      l.Sorted (fun a b => a.name < b.name) := by
    intro l hs hne
    exact (hs.and hne).imp (fun h => lt_of_le_of_ne h.1 h.2)
  exact List.eq_of_perm_of_sorted hp' (hstrict _ hs₁ hn₁) (hstrict _ hs₂ hn₂)

/-- C8: the layer builders are deterministic functions of their inputs,
and the tar stream of a file tree is invariant under reordering of the
(distinctly named) root directory entries: traversal order is stable
because entries are walked in lexical order.  Rendering the entrypoint is
a pure function of the `Entrypoint` value alone. -/
theorem C8_layer_determinism :
    (∀ e₁ e₂ : Entrypoint, e₁ = e₂ → renderEntrypoint e₁ = renderEntrypoint e₂) ∧
    (∀ l₁ l₂ : List FSEntry,
      l₁.Perm l₂ →
      l₁.Pairwise (fun a b => a.name ≠ b.name) →
      tarAddFS l₁ = tarAddFS l₂) := by
  refine ⟨fun e₁ e₂ h => h ▸ rfl, ?_⟩
  intro l₁ l₂ hp hn
  unfold tarAddFS
  have hmap : (l₁.map sortFS).Perm (l₂.map sortFS) := hp.map sortFS
  have hnm : (l₁.map sortFS).Pairwise (fun a b => a.name ≠ b.name) := by
    rw [List.pairwise_map]
    exact hn.imp (fun h => by simpa [sortFS_name] using h)
  rw [sortByName_eq_of_perm (l₁.map sortFS) (l₂.map sortFS) hmap hnm]

/-- C8 witness: two concrete root listings that are permutations of each
other produce identical tar streams. -/
theorem C8_layer_determinism_witness :
    tarAddFS [FSEntry.file "b" 420 "x", FSEntry.file "a" 420 "y"] =
      tarAddFS [FSEntry.file "a" 420 "y", FSEntry.file "b" 420 "x"] :=
  C8_layer_determinism.2 _ _ (List.Perm.swap _ _ _) (by decide)

/-! ## Task codec round trip -/

theorem lookupStr_append {α : Type} (xs ys : List (String × α)) (k : String) :
    lookupStr (xs ++ ys) k =
      match lookupStr xs k with
      | some v => some v
      | none => lookupStr ys k := by
  induction xs with
  | nil => simp [lookupStr]
  | cons p xs ih =>
    obtain ⟨k₂, v⟩ := p
    by_cases h : k₂ = k
    · simp [lookupStr, h]
    · simp [lookupStr, h, ih]

theorem asNat_natCast (n : Nat) : Json.asNat (Json.jnum (n : Int)) = some n := by
  simp only [Json.asNat]
  rw [if_neg (by omega : ¬ ((n : Int) < 0))]
  simp

theorem mapM_asString_jstr (xs : List String) :
    mapMOption Json.asString (xs.map Json.jstr) = some xs := by
  induction xs with
  | nil => rfl
  | cons x xs ih => simp [mapMOption, ih, Json.asString]

theorem resources_roundtrip (r : Resources) :
    Resources.fromJson (Json.jobj r.toJsonFields) = some r := by
  obtain ⟨cpu, memory⟩ := r
  by_cases hc : cpu = "" <;> by_cases hm : memory = "" <;>
    simp [Resources.toJsonFields, Resources.fromJson, optField, lookupStr,
      hc, hm, Json.asString]

theorem task_roundtrip (t : Task) : Task.fromJson (Task.toJson t) = some t := by
  obtain ⟨pkg, ver, ep, path, sdir, archs, subs, res, bde⟩ := t
  simp only [Task.toJson, Task.fromJson]
  by_cases hp : path = "" <;> by_cases hs : sdir = "" <;>
    by_cases ha : archs = ([] : List String) <;>
    by_cases hb : subs = ([] : List String) <;>
    rcases res with _ | r <;>
    simp [optField, lookupStr_append, lookupStr, hp, hs, ha, hb,
      Json.asString, asNat_natCast, mapM_asString_jstr, Json.asStringList,
      Json.asInt, resources_roundtrip]

theorem tasks_mapM_roundtrip (ts : List Task) :
    mapMOption Task.fromJson (ts.map Task.toJson) = some ts := by
  induction ts with
  | nil => rfl
  | cons t ts ih => simp [mapMOption, task_roundtrip, ih]

/-- C7: serializing any task list to its tasks-layer JSON form and
decoding it the way `Pull`'s tasks branch does reproduces the original
list, field for field. -/
theorem C7_tasks_roundtrip :
    ∀ ts : List Task, tasksFromJson (tasksToJson ts) = some ts := by
  intro ts
  simp [tasksFromJson, tasksToJson, tasks_mapM_roundtrip]

/-! ## Bundle decoder theorems -/

/-- Manifests whose classification annotation is unrecognized (or absent)
are skipped by the manifest loop without touching the state. -/
theorem pullLoop_skips_ignored (repo pr : String)
    (images : String → Option PulledImage) (pre rest : List ManifestDesc)
    (b : Bundles)
    (h : ∀ d ∈ pre, classificationOf d ≠ "graph" ∧ classificationOf d ≠ "tasks" ∧
      classificationOf d ≠ "runtime") :
    pullLoop repo pr images (pre ++ rest) b = pullLoop repo pr images rest b := by
  induction pre with
  | nil => rfl
  | cons d ds ih =>
    have hd := h d (List.mem_cons_self d ds)
    rw [List.cons_append]
    simp only [pullLoop]
    rw [if_neg hd.1, if_neg hd.2.1, if_neg hd.2.2]
    exact ih (fun x hx => h x (List.mem_cons_of_mem d hx))

theorem pullLoop_all_ignored (repo pr : String)
    (images : String → Option PulledImage) (ds : List ManifestDesc) (b : Bundles)
    (h : ∀ d ∈ ds, classificationOf d ≠ "graph" ∧ classificationOf d ≠ "tasks" ∧
      classificationOf d ≠ "runtime") :
    pullLoop repo pr images ds b = .ok b := by
  have := pullLoop_skips_ignored repo pr images ds [] b h
  simpa using this

/-- C5: pulling a bundle whose recognized manifests are exactly one
`tasks`-annotated manifest (everything else carrying an unrecognized or
missing annotation) yields the decoded task list with an empty graph and
the zero-value runtime reference; a `runtime`-annotated manifest reads no
layer — the result does not depend on the image fetcher at all — and sets
the runtime reference to the input repository qualified by that
manifest's digest. -/
theorem C5_pull_classification :
    (∀ (repo pr : String) (images : String → Option PulledImage)
       (pre post : List ManifestDesc) (dT : ManifestDesc)
       (img : PulledImage) (j : Json) (rest : List (Option Json)) (ts : List Task),
      (∀ d ∈ pre ++ post, classificationOf d ≠ "graph" ∧
        classificationOf d ≠ "tasks" ∧ classificationOf d ≠ "runtime") →
      classificationOf dT = "tasks" →
      images dT.digest = some img →
      img.layers = some j :: rest →
      tasksFromJson j = some ts →
      Pull repo pr ⟨pre ++ dT :: post⟩ images = .ok ⟨[], ts, DigestRef.zero⟩) ∧
    (∀ (repo pr : String) (images : String → Option PulledImage)
       (pre post : List ManifestDesc) (dR : ManifestDesc),
      (∀ d ∈ pre ++ post, classificationOf d ≠ "graph" ∧
        classificationOf d ≠ "tasks" ∧ classificationOf d ≠ "runtime") →
      classificationOf dR = "runtime" →
      Pull repo pr ⟨pre ++ dR :: post⟩ images = .ok ⟨[], [], ⟨repo, dR.digest⟩⟩) := by
  constructor
  · intro repo pr images pre post dT img j rest ts hign hT himg hlay hts
    unfold Pull
    rw [if_neg (by simp)]
    rw [pullLoop_skips_ignored repo pr images pre (dT :: post) _
      (fun d hd => hign d (List.mem_append_left post hd))]
    simp only [pullLoop, hT]
    rw [if_pos trivial]
    simp only [himg, hlay, hts]
    exact pullLoop_all_ignored repo pr images post _
      (fun d hd => hign d (List.mem_append_right pre hd))
  · intro repo pr images pre post dR hign hR
    unfold Pull
    rw [if_neg (by simp)]
    rw [pullLoop_skips_ignored repo pr images pre (dR :: post) _
      (fun d hd => hign d (List.mem_append_left post hd))]
    simp only [pullLoop, hR]
    rw [if_pos trivial]
    exact pullLoop_all_ignored repo pr images post _
      (fun d hd => hign d (List.mem_append_right pre hd))

/-- C5 witness: a bundle with a single tasks manifest decodes to the one
serialized task, and a single runtime manifest pins the digest. -/
theorem C5_pull_classification_witness :
    Pull "repo" "r" ⟨[⟨"sha256:t", [("dev.wolfi.bundle", "tasks")]⟩]⟩
      (fun _ => some ⟨[some (Json.jarr [Json.jobj
        [("package", Json.jstr "p"), ("version", Json.jstr "1"),
         ("epoch", Json.jnum 0), ("buildDateEpoch", Json.jnum 0)]])]⟩) =
      .ok ⟨[], [⟨"p", "1", 0, "", "", [], [], none, 0⟩], DigestRef.zero⟩ ∧
    Pull "repo" "r" ⟨[⟨"sha256:rt", [("dev.wolfi.bundle", "runtime")]⟩]⟩
      (fun _ => none) =
      .ok ⟨[], [], ⟨"repo", "sha256:rt"⟩⟩ :=
  ⟨C5_pull_classification.1 "repo" "r" _ [] [] _ _ _ [] _
      (fun d hd => absurd hd (List.not_mem_nil d)) rfl rfl rfl (by decide),
   C5_pull_classification.2 "repo" "r" _ [] [] _
      (fun d hd => absurd hd (List.not_mem_nil d)) rfl⟩

/-- C6 counterexample: when the tasks manifest's first layer fails to
decode, `Pull` propagates the decoder's error unwrapped: the resulting
error identifies no digest, so the decode failure is not
digest-identified as the claim states. -/
theorem C6_decode_error_counterexample :
    Pull "repo" "r" ⟨[⟨"sha256:aaa", [("dev.wolfi.bundle", "tasks")]⟩]⟩
      (fun _ => some ⟨[some (Json.jstr "x")]⟩) =
      .error (.decodeFailure (some (Json.jstr "x"))) ∧
    (PullError.decodeFailure (some (Json.jstr "x"))).digests = [] := by
  constructor
  · rfl
  · rfl

/-- C6 (amended): `Pull` fails on an index with zero manifests; a
`graph`- or `tasks`-annotated manifest with zero layers fails with an
error identifying the offending digest; a first layer whose bytes fail to
decode fails with the decoder's error, which identifies no digest; and in
every failure case the `Except` result carries no bundle at all. -/
theorem C6_pull_failure_modes :
    (∀ (repo pr : String) (images : String → Option PulledImage),
      Pull repo pr ⟨[]⟩ images = .error (.noManifests pr)) ∧
    (∀ (repo pr : String) (images : String → Option PulledImage)
       (pre post : List ManifestDesc) (dT : ManifestDesc),
      (∀ d ∈ pre, classificationOf d ≠ "graph" ∧
        classificationOf d ≠ "tasks" ∧ classificationOf d ≠ "runtime") →
      classificationOf dT = "tasks" →
      images dT.digest = some ⟨[]⟩ →
      Pull repo pr ⟨pre ++ dT :: post⟩ images =
        .error (.noTasksLayers dT.digest pr) ∧
      (PullError.noTasksLayers dT.digest pr).digests = [dT.digest]) ∧
    (∀ (repo pr : String) (images : String → Option PulledImage)
       (pre post : List ManifestDesc) (dG : ManifestDesc),
      (∀ d ∈ pre, classificationOf d ≠ "graph" ∧
        classificationOf d ≠ "tasks" ∧ classificationOf d ≠ "runtime") →
      classificationOf dG = "graph" →
      images dG.digest = some ⟨[]⟩ →
      Pull repo pr ⟨pre ++ dG :: post⟩ images =
        .error (.noGraphLayers dG.digest pr) ∧
      (PullError.noGraphLayers dG.digest pr).digests = [dG.digest]) ∧
    (∀ (repo pr : String) (images : String → Option PulledImage)
       (pre post : List ManifestDesc) (dT : ManifestDesc)
       (img : PulledImage) (j : Json) (rest : List (Option Json)),
      (∀ d ∈ pre, classificationOf d ≠ "graph" ∧
        classificationOf d ≠ "tasks" ∧ classificationOf d ≠ "runtime") →
      classificationOf dT = "tasks" →
      images dT.digest = some img →
      img.layers = some j :: rest →
      tasksFromJson j = none →
      Pull repo pr ⟨pre ++ dT :: post⟩ images =
        .error (.decodeFailure (some j)) ∧
      (PullError.decodeFailure (some j)).digests = []) ∧
    (∀ (repo pr : String) (images : String → Option PulledImage)
       (pre post : List ManifestDesc) (dG : ManifestDesc)
       (img : PulledImage) (j : Json) (rest : List (Option Json)),
      (∀ d ∈ pre, classificationOf d ≠ "graph" ∧
        classificationOf d ≠ "tasks" ∧ classificationOf d ≠ "runtime") →
      classificationOf dG = "graph" →
      images dG.digest = some img →
      img.layers = some j :: rest →
      graphFromJson j = none →
      Pull repo pr ⟨pre ++ dG :: post⟩ images =
        .error (.decodeFailure (some j)) ∧
      (PullError.decodeFailure (some j)).digests = []) := by
  refine ⟨fun repo pr images => rfl, ?_, ?_, ?_, ?_⟩
  · intro repo pr images pre post dT hign hT himg
    refine ⟨?_, rfl⟩
    unfold Pull
    rw [if_neg (by simp)]
    rw [pullLoop_skips_ignored repo pr images pre (dT :: post) _ hign]
    simp only [pullLoop, hT]
    rw [if_pos trivial]
    simp only [himg]
    rw [if_neg (by decide)]
  · intro repo pr images pre post dG hign hG himg
    refine ⟨?_, rfl⟩
    unfold Pull
    rw [if_neg (by simp)]
    rw [pullLoop_skips_ignored repo pr images pre (dG :: post) _ hign]
    simp only [pullLoop, hG]
    rw [if_pos trivial]
    simp only [himg]
  · intro repo pr images pre post dT img j rest hign hT himg hlay hdec
    refine ⟨?_, rfl⟩
    unfold Pull
    rw [if_neg (by simp)]
    rw [pullLoop_skips_ignored repo pr images pre (dT :: post) _ hign]
    simp only [pullLoop, hT]
    rw [if_pos trivial]
    simp only [himg, hlay, hdec]
    rw [if_neg (by decide)]
  · intro repo pr images pre post dG img j rest hign hG himg hlay hdec
    refine ⟨?_, rfl⟩
    unfold Pull
    rw [if_neg (by simp)]
    rw [pullLoop_skips_ignored repo pr images pre (dG :: post) _ hign]
    simp only [pullLoop, hG]
    rw [if_pos trivial]
    simp only [himg, hlay, hdec]

/-- C6 witness: the failure modes at concrete bundles — an empty index, a
tasks manifest with zero layers, a graph manifest with zero layers, and a
graph manifest whose first layer does not decode as a graph. -/
theorem C6_pull_failure_modes_witness :
    Pull "repo" "r" ⟨[]⟩ (fun _ => none) = .error (.noManifests "r") ∧
    Pull "repo" "r" ⟨[⟨"sha256:t", [("dev.wolfi.bundle", "tasks")]⟩]⟩
      (fun _ => some ⟨[]⟩) = .error (.noTasksLayers "sha256:t" "r") ∧
    Pull "repo" "r" ⟨[⟨"sha256:g", [("dev.wolfi.bundle", "graph")]⟩]⟩
      (fun _ => some ⟨[]⟩) = .error (.noGraphLayers "sha256:g" "r") ∧
    Pull "repo" "r" ⟨[⟨"sha256:g", [("dev.wolfi.bundle", "graph")]⟩]⟩
      (fun _ => some ⟨[some (Json.jstr "x")]⟩) =
      .error (.decodeFailure (some (Json.jstr "x"))) :=
  ⟨C6_pull_failure_modes.1 "repo" "r" _,
   (C6_pull_failure_modes.2.1 "repo" "r" (fun _ => some ⟨[]⟩) [] []
      ⟨"sha256:t", [("dev.wolfi.bundle", "tasks")]⟩
      (fun d hd => absurd hd (List.not_mem_nil d)) rfl rfl).1,
   (C6_pull_failure_modes.2.2.1 "repo" "r" (fun _ => some ⟨[]⟩) [] []
      ⟨"sha256:g", [("dev.wolfi.bundle", "graph")]⟩
      (fun d hd => absurd hd (List.not_mem_nil d)) rfl rfl).1,
   (C6_pull_failure_modes.2.2.2.2 "repo" "r" (fun _ => some ⟨[some (Json.jstr "x")]⟩) [] []
      ⟨"sha256:g", [("dev.wolfi.bundle", "graph")]⟩ ⟨[some (Json.jstr "x")]⟩
      (Json.jstr "x") []
      (fun d hd => absurd hd (List.not_mem_nil d)) rfl rfl rfl rfl).1⟩

end WolfiBundle
